import Mathlib

/-!
Verification development for the call-graph VS Code extension core:
the index loader/builder (`indexLoader.ts`) and the pipeline runner
(`pipelineRunner.ts`).  Definitions are shallow embeddings of the
TypeScript source; theorems check the natural-language specification
against them.
-/

/-! ## Association-list model of a JavaScript `Map`

Insertion-ordered; `set` overwrites in place when the key is present and
appends otherwise, exactly like `Map.prototype.set`. -/

def mapGet {K V : Type} [DecidableEq K] : List (K × V) → K → Option V
  | [], _ => none
  | p :: ps, k => if p.1 = k then some p.2 else mapGet ps k

def mapHasKey {K V : Type} [DecidableEq K] (m : List (K × V)) (k : K) : Bool :=
  (mapGet m k).isSome

def mapSet {K V : Type} [DecidableEq K] (m : List (K × V)) (k : K) (v : V) :
    List (K × V) :=
  if mapHasKey m k then m.map (fun p => if p.1 = k then (p.1, v) else p)
  else m ++ [(k, v)]

theorem mapGet_map_replace {K V : Type} [DecidableEq K] (k k2 : K) (v : V) :
    ∀ m : List (K × V),
      mapGet (m.map (fun p => if p.1 = k then (p.1, v) else p)) k2 =
        if k2 = k then (mapGet m k).map (fun _ => v) else mapGet m k2 := by
  intro m
  induction m with
  | nil => by_cases h : k2 = k <;> simp [mapGet, h]
  | cons p ps ih =>
    by_cases hp : p.1 = k
    · by_cases hk : k2 = k
      · subst hk
        simp [mapGet, hp]
      · have hne : ¬ p.1 = k2 := by
          intro hc; exact hk (by rw [← hc, hp])
        have hk2 : ¬ k = k2 := fun hc => hk hc.symm
        simp [mapGet, hp, hne, ih, hk, hk2]
    · by_cases hq : p.1 = k2
      · have hk : ¬ k2 = k := by
          intro hc; exact hp (by rw [hq, hc])
        simp [mapGet, hp, hq, hk]
      · simp [mapGet, hp, hq, ih]

theorem mapGet_append {K V : Type} [DecidableEq K] (k : K) :
    ∀ (m l : List (K × V)),
      mapGet (m ++ l) k =
        match mapGet m k with
        | some v => some v
        | none => mapGet l k := by
  intro m l
  induction m with
  | nil => simp [mapGet]
  | cons p ps ih =>
    by_cases hp : p.1 = k
    · simp [mapGet, hp]
    · simp [mapGet, hp, ih]

theorem mapGet_mapSet {K V : Type} [DecidableEq K] (m : List (K × V))
    (k k2 : K) (v : V) :
    mapGet (mapSet m k v) k2 = if k2 = k then some v else mapGet m k2 := by
  unfold mapSet
  by_cases h : mapHasKey m k
  · rw [if_pos h, mapGet_map_replace]
    unfold mapHasKey at h
    by_cases hk : k2 = k
    · subst hk
      cases hg : mapGet m k2 with
      | none => rw [hg] at h; simp at h
      | some w => simp [hg]
    · simp [hk]
  · rw [if_neg h, mapGet_append]
    unfold mapHasKey at h
    by_cases hk : k2 = k
    · subst hk
      cases hg : mapGet m k2 with
      | none => simp [hg, mapGet]
      | some w => rw [hg] at h; simp at h
    · have hk2 : ¬ k = k2 := fun hc => hk hc.symm
      cases hg : mapGet m k2 with
      | none => simp [mapGet, hg, hk, hk2]
      | some w => simp [hg, hk]

theorem mapHasKey_mapSet {K V : Type} [DecidableEq K] (m : List (K × V))
    (k k2 : K) (v : V) :
    mapHasKey (mapSet m k v) k2 = (decide (k2 = k) || mapHasKey m k2) := by
  unfold mapHasKey
  rw [mapGet_mapSet]
  by_cases hk : k2 = k <;> simp [hk]

theorem mapSet_length {K V : Type} [DecidableEq K] (m : List (K × V))
    (k : K) (v : V) :
    (mapSet m k v).length =
      if mapHasKey m k then m.length else m.length + 1 := by
  unfold mapSet
  by_cases h : mapHasKey m k <;> simp [h]

/-! ## Typed data model (`indexLoader.ts` interfaces) -/

inductive VerificationStatus : Type
  | verified
  | failed
  | unverified
deriving DecidableEq, Repr

inductive FunctionMode : Type
  | exec
  | proof
  | spec
deriving DecidableEq, Repr

/-- Node record (`D3Node`) from the scip-callgraph pipeline output.  Optional TS fields
become `Option`; line numbers are the dataset's non-negative integers. -/
structure D3Node where
  id : String
  display_name : String
  symbol : String
  relative_path : String
  file_name : String
  parent_folder : String
  start_line : Option Nat
  end_line : Option Nat
  is_libsignal : Bool
  dependencies : List String
  dependents : List String
  mode : Option FunctionMode
  verification_status : Option VerificationStatus
  full_path : Option String
deriving DecidableEq, Repr

structure D3Link where
  source : String
  target : String
  type : Option String
deriving DecidableEq, Repr

structure IndexMetadata where
  total_nodes : Nat
  total_edges : Nat
  project_root : String
  generated_at : String
  github_url : Option String
deriving DecidableEq, Repr

structure D3Graph where
  nodes : List D3Node
  links : List D3Link
  metadata : Option IndexMetadata
deriving DecidableEq, Repr

/-- The four lookup maps built by `buildIndex`'s loop. -/
structure IndexMaps where
  nodesById : List (String × D3Node)
  nodesByDisplayName : List (String × List D3Node)
  nodesByFile : List (String × List D3Node)
  nodesByLine : List (String × List (Nat × D3Node))
deriving DecidableEq, Repr

/-- Index record (`CallGraphIndex`): the four maps plus links and metadata.  The two
`Date` fields (`generatedAt`, `loadedAt`) are wall-clock reads and are
not modelled. -/
structure CallGraphIndex where
  nodesById : List (String × D3Node)
  nodesByDisplayName : List (String × List D3Node)
  nodesByFile : List (String × List D3Node)
  nodesByLine : List (String × List (Nat × D3Node))
  links : List D3Link
  totalNodes : Nat
  totalEdges : Nat
  projectRoot : String
  indexPath : String
deriving DecidableEq, Repr

/-- Source: `const filePath = node.relative_path || node.file_name;` —
the empty string is falsy in JS. -/
def nodeFilePath (n : D3Node) : String :=
  if n.relative_path = "" then n.file_name else n.relative_path

/-- Source: `const endLine = node.end_line || node.start_line;` — both
`undefined` and `0` are falsy, so either falls back to `start_line`. -/
def effEnd (s : Nat) : Option Nat → Nat
  | some e => if e = 0 then s else e
  | none => s

/-- The inclusive range `s, s+1, ..., e` (empty when `e < s`),
mirroring `for (let line = s; line <= e; line++)`. -/
def rangeIncl (s e : Nat) : List Nat :=
  (List.range (e + 1 - s)).map (fun i => i + s)

/-- Runs `lineMap.set(line, node)` for every line of the range. -/
def setLines (lm : List (Nat × D3Node)) (n : D3Node) (lines : List Nat) :
    List (Nat × D3Node) :=
  lines.foldl (fun m L => mapSet m L n) lm

/-- One iteration of the `for (const node of graph.nodes)` loop in
`buildIndex` (indexLoader.ts lines 603-634). -/
def buildStep (acc : IndexMaps) (n : D3Node) : IndexMaps :=
  { nodesById := mapSet acc.nodesById n.id n
    nodesByDisplayName :=
      mapSet acc.nodesByDisplayName n.display_name
        ((mapGet acc.nodesByDisplayName n.display_name).getD [] ++ [n])
    nodesByFile :=
      if nodeFilePath n = "" then acc.nodesByFile
      else
        mapSet acc.nodesByFile (nodeFilePath n)
          ((mapGet acc.nodesByFile (nodeFilePath n)).getD [] ++ [n])
    nodesByLine :=
      match n.start_line with
      | none => acc.nodesByLine
      | some s =>
        if nodeFilePath n = "" then acc.nodesByLine
        else
          mapSet acc.nodesByLine (nodeFilePath n)
            (setLines ((mapGet acc.nodesByLine (nodeFilePath n)).getD [])
              n (rangeIncl s (effEnd s n.end_line))) }

/-- Model of `buildIndex(graph, indexPath)` (indexLoader.ts lines 597-651). -/
def buildIndex (g : D3Graph) (indexPath : String) : CallGraphIndex :=
  let ms := g.nodes.foldl buildStep ⟨[], [], [], []⟩
  { nodesById := ms.nodesById
    nodesByDisplayName := ms.nodesByDisplayName
    nodesByFile := ms.nodesByFile
    nodesByLine := ms.nodesByLine
    links := g.links
    totalNodes := g.nodes.length
    totalEdges := g.links.length
    projectRoot := (g.metadata.map (fun m => m.project_root)).getD ""
    indexPath := indexPath }

/-- Lookup `nodesByLine.get(file)?.get(line)` that consumers perform. -/
def lineLookupMaps (ms : IndexMaps) (f : String) (L : Nat) : Option D3Node :=
  (mapGet ms.nodesByLine f).bind (fun lm => mapGet lm L)

def lineLookup (idx : CallGraphIndex) (f : String) (L : Nat) : Option D3Node :=
  (mapGet idx.nodesByLine f).bind (fun lm => mapGet lm L)

/-! ## Last-writer analysis of `nodesByLine` -/

/-- Predicate `covers n f L`: processing node `n` writes file `f`, line `L` into
`nodesByLine` (the node has a non-empty file path equal to `f`, a defined
`start_line`, and `L` lies in its effective inclusive range). -/
def covers (n : D3Node) (f : String) (L : Nat) : Bool :=
  match n.start_line with
  | none => false
  | some s =>
    decide (nodeFilePath n = f) && !(decide (nodeFilePath n = "")) &&
      decide (s ≤ L) && decide (L ≤ effEnd s n.end_line)

/-- The last element of a list, with a default for the empty list. -/
def lastD {α : Type} : List α → α → α
  | [], d => d
  | x :: xs, _ => lastD xs x

theorem lastD_append {α : Type} (l2 : List α) :
    ∀ (l1 : List α) (d : α), lastD (l1 ++ l2) d = lastD l2 (lastD l1 d) := by
  induction l2 with
  | nil =>
    intro l1 d
    induction l1 generalizing d with
    | nil => rfl
    | cons x xs ih => simp [lastD, ih]
  | cons y ys ih =>
    intro l1 d
    induction l1 generalizing d with
    | nil => rfl
    | cons x xs ih2 => simp [lastD, ih2]

theorem lastD_mem {α : Type} : ∀ (l : List α) (d : α), lastD l d ∈ d :: l := by
  intro l
  induction l with
  | nil => intro d; simp [lastD]
  | cons x xs ih =>
    intro d
    exact List.mem_cons_of_mem d (ih x)

theorem mapGet_setLines (n : D3Node) :
    ∀ (lines : List Nat) (lm : List (Nat × D3Node)) (L : Nat),
      mapGet (setLines lm n lines) L =
        if L ∈ lines then some n else mapGet lm L := by
  intro lines
  induction lines with
  | nil => intro lm L; simp [setLines]
  | cons a rest ih =>
    intro lm L
    have : setLines lm n (a :: rest) = setLines (mapSet lm a n) n rest := rfl
    rw [this, ih, mapGet_mapSet]
    by_cases h1 : L ∈ rest
    · simp [h1]
    · by_cases h2 : L = a <;> simp [h1, h2]

theorem mem_rangeIncl (s e L : Nat) : L ∈ rangeIncl s e ↔ s ≤ L ∧ L ≤ e := by
  unfold rangeIncl
  simp only [List.mem_map, List.mem_range]
  constructor
  · rintro ⟨i, hi, rfl⟩
    omega
  · rintro ⟨h1, h2⟩
    exact ⟨L - s, by omega, by omega⟩

/-- Effect of one `buildStep` on line lookup: the node overwrites exactly
the lines it covers and leaves everything else unchanged. -/
theorem lineLookupMaps_buildStep (acc : IndexMaps) (n : D3Node) (f : String)
    (L : Nat) :
    lineLookupMaps (buildStep acc n) f L =
      if covers n f L then some n else lineLookupMaps acc f L := by
  simp only [lineLookupMaps, covers, buildStep]
  cases hs : n.start_line with
  | none => simp
  | some s =>
    by_cases hfp : nodeFilePath n = ""
    · simp [hfp]
    · by_cases hf : nodeFilePath n = f
      · subst hf
        by_cases h1 : s ≤ L <;> by_cases h2 : L ≤ effEnd s n.end_line <;>
          cases hg : mapGet acc.nodesByLine (nodeFilePath n) <;>
            simp [if_neg hfp, mapGet_mapSet, mapGet_setLines, mem_rangeIncl,
              h1, h2, hfp, hg, mapGet]
      · have hf2 : ¬ f = nodeFilePath n := fun hc => hf hc.symm
        simp [if_neg hfp, mapGet_mapSet, hf, hf2, hfp]

/-- Line lookup after the whole build loop is the last processed covering
node, falling back to the accumulator when no node covers the line. -/
theorem lineLookupMaps_foldl (f : String) (L : Nat) :
    ∀ (l : List D3Node) (acc : IndexMaps),
      lineLookupMaps (l.foldl buildStep acc) f L =
        match l.filter (fun m => covers m f L) with
        | [] => lineLookupMaps acc f L
        | c :: cs => some (lastD cs c) := by
  intro l
  induction l with
  | nil => intro acc; rfl
  | cons n l ih =>
    intro acc
    have hstep : (n :: l).foldl buildStep acc = l.foldl buildStep (buildStep acc n) := rfl
    rw [hstep, ih]
    by_cases hc : covers n f L
    · simp only [List.filter_cons, hc]
      cases hrest : l.filter (fun m => covers m f L) with
      | nil => simp [lineLookupMaps_buildStep, hc, lastD]
      | cons c cs => simp [lastD]
    · simp only [List.filter_cons, hc]
      cases hrest : l.filter (fun m => covers m f L) with
      | nil => simp [lineLookupMaps_buildStep, hc]
      | cons c cs => simp

/-- Line lookup in the finished index, closed form. -/
theorem lineLookup_buildIndex (g : D3Graph) (p f : String) (L : Nat) :
    lineLookup (buildIndex g p) f L =
      match g.nodes.filter (fun m => covers m f L) with
      | [] => none
      | c :: cs => some (lastD cs c) := by
  have h1 : lineLookup (buildIndex g p) f L =
      lineLookupMaps (g.nodes.foldl buildStep ⟨[], [], [], []⟩) f L := rfl
  rw [h1, lineLookupMaps_foldl]
  cases g.nodes.filter (fun m => covers m f L) with
  | nil => rfl
  | cons c cs => rfl

/-! ## Per-map analysis of the build loop -/

theorem buildStep_nodesById (acc : IndexMaps) (n : D3Node) :
    (buildStep acc n).nodesById = mapSet acc.nodesById n.id n := rfl

theorem foldl_nodesById_hasKey (k : String) :
    ∀ (l : List D3Node) (acc : IndexMaps),
      mapHasKey ((l.foldl buildStep acc).nodesById) k =
        (mapHasKey acc.nodesById k || l.any (fun n => decide (n.id = k))) := by
  intro l
  induction l with
  | nil => intro acc; simp
  | cons n l ih =>
    intro acc
    have hstep : ((n :: l).foldl buildStep acc) =
        l.foldl buildStep (buildStep acc n) := rfl
    rw [hstep, ih, buildStep_nodesById, mapHasKey_mapSet]
    by_cases h : k = n.id
    · simp [h]
    · have h2 : ¬ n.id = k := fun hc => h hc.symm
      simp [h, h2, Bool.or_assoc]

theorem foldl_nodesById_length :
    ∀ (l : List D3Node) (acc : IndexMaps),
      (l.map (fun n => n.id)).Nodup →
      (∀ n ∈ l, mapHasKey acc.nodesById n.id = false) →
      ((l.foldl buildStep acc).nodesById).length =
        acc.nodesById.length + l.length := by
  intro l
  induction l with
  | nil => intro acc _ _; simp
  | cons n l ih =>
    intro acc hnd hfresh
    rw [List.map_cons, List.nodup_cons] at hnd
    have hstep : ((n :: l).foldl buildStep acc) =
        l.foldl buildStep (buildStep acc n) := rfl
    rw [hstep]
    have hkey : mapHasKey acc.nodesById n.id = false :=
      hfresh n (List.mem_cons_self n l)
    have hfresh2 : ∀ m ∈ l, mapHasKey ((buildStep acc n).nodesById) m.id = false := by
      intro m hm
      rw [buildStep_nodesById, mapHasKey_mapSet]
      have h1 : ¬ m.id = n.id := by
        intro hc
        exact hnd.1 (by rw [← hc]; exact List.mem_map_of_mem _ hm)
      simp [h1, hfresh m (List.mem_cons_of_mem n hm)]
    rw [ih (buildStep acc n) hnd.2 hfresh2]
    have hlen : ((buildStep acc n).nodesById).length = acc.nodesById.length + 1 := by
      rw [buildStep_nodesById, mapSet_length, hkey]
      simp
    rw [hlen]
    simp [List.length_cons]
    omega

theorem foldl_displayName (name : String) :
    ∀ (l : List D3Node) (acc : IndexMaps),
      (mapGet ((l.foldl buildStep acc).nodesByDisplayName) name).getD [] =
        (mapGet acc.nodesByDisplayName name).getD [] ++
          l.filter (fun m => decide (m.display_name = name)) := by
  intro l
  induction l with
  | nil => intro acc; simp
  | cons n l ih =>
    intro acc
    have hstep : ((n :: l).foldl buildStep acc) =
        l.foldl buildStep (buildStep acc n) := rfl
    rw [hstep, ih]
    have hbn : (buildStep acc n).nodesByDisplayName =
        mapSet acc.nodesByDisplayName n.display_name
          ((mapGet acc.nodesByDisplayName n.display_name).getD [] ++ [n]) := rfl
    rw [hbn, mapGet_mapSet]
    by_cases h : name = n.display_name
    · subst h
      simp [List.filter_cons, List.append_assoc]
    · have h2 : ¬ n.display_name = name := fun hc => h hc.symm
      simp [h, h2, List.filter_cons]

/-- Invariant: every node filed under key `f` in `nodesByFile` actually
has file path `f`, and `f` is non-empty. -/
def fileInv (acc : IndexMaps) : Prop :=
  ∀ (f : String) (m : D3Node),
    m ∈ (mapGet acc.nodesByFile f).getD [] → nodeFilePath m = f ∧ f ≠ ""

theorem fileInv_buildStep (acc : IndexMaps) (n : D3Node) (h : fileInv acc) :
    fileInv (buildStep acc n) := by
  intro f m hm
  have hbf : (buildStep acc n).nodesByFile =
      (if nodeFilePath n = "" then acc.nodesByFile
       else
        mapSet acc.nodesByFile (nodeFilePath n)
          ((mapGet acc.nodesByFile (nodeFilePath n)).getD [] ++ [n])) := rfl
  rw [hbf] at hm
  by_cases hfp : nodeFilePath n = ""
  · rw [if_pos hfp] at hm
    exact h f m hm
  · rw [if_neg hfp, mapGet_mapSet] at hm
    by_cases hf : f = nodeFilePath n
    · rw [if_pos hf] at hm
      simp only [Option.getD_some] at hm
      rcases List.mem_append.mp hm with h1 | h1
      · exact h f m (by rw [hf]; exact h1)
      · simp at h1
        subst h1
        exact ⟨hf.symm, by rw [hf]; exact hfp⟩
    · rw [if_neg hf] at hm
      exact h f m hm

theorem fileInv_foldl :
    ∀ (l : List D3Node) (acc : IndexMaps), fileInv acc →
      fileInv (l.foldl buildStep acc) := by
  intro l
  induction l with
  | nil => intro acc h; exact h
  | cons n l ih =>
    intro acc h
    exact ih (buildStep acc n) (fileInv_buildStep acc n h)

theorem fileInv_empty : fileInv ⟨[], [], [], []⟩ := by
  intro f m hm
  simp [mapGet] at hm

/-! ## Claim theorems about the Index Builder -/

/-- Concrete node constructor for witnesses (unspecified fields default). -/
def mkNode (id dn rp fn : String) (sl el : Option Nat) : D3Node :=
  ⟨id, dn, "", rp, fn, "", sl, el, false, [], [], none, none, none⟩

/-- C4: for every valid graph G (every node id appears exactly once),
`buildIndex(G).nodesById` has exactly `|G.nodes|` entries. -/
theorem buildIndex_nodesById_size (g : D3Graph) (p : String)
    (hvalid : (g.nodes.map (fun n => n.id)).Nodup) :
    (buildIndex g p).nodesById.length = g.nodes.length := by
  have h : (buildIndex g p).nodesById =
      ((g.nodes.foldl buildStep ⟨[], [], [], []⟩)).nodesById := rfl
  rw [h, foldl_nodesById_length g.nodes ⟨[], [], [], []⟩ hvalid
    (fun n _ => rfl)]
  simp

theorem buildIndex_nodesById_size_witness :
    ((([mkNode "func_a" "a" "src/m.rs" "m.rs" (some 1) (some 2),
        mkNode "func_b" "b" "src/m.rs" "m.rs" (some 5) (some 9)] :
          List D3Node).map (fun n => n.id)).Nodup)
    ∧ (buildIndex
        ⟨[mkNode "func_a" "a" "src/m.rs" "m.rs" (some 1) (some 2),
          mkNode "func_b" "b" "src/m.rs" "m.rs" (some 5) (some 9)], [], none⟩
        "p").nodesById.length = 2 :=
  ⟨by decide,
   buildIndex_nodesById_size
     ⟨[mkNode "func_a" "a" "src/m.rs" "m.rs" (some 1) (some 2),
       mkNode "func_b" "b" "src/m.rs" "m.rs" (some 5) (some 9)], [], none⟩
     "p" (by decide)⟩

/-- C5: for every node n with `start_line ≤ end_line` and a non-empty file
path, after `buildIndex` every line L in n's inclusive range maps (under
n's file path) to the last node processed that covers L — n itself when no
node after n in iteration order covers L. -/
theorem buildIndex_lineRange_lastWins (pre post : List D3Node) (n : D3Node)
    (lk : List D3Link) (md : Option IndexMetadata) (p : String) (s e L : Nat)
    (hs : n.start_line = some s) (he : n.end_line = some e) (hse : s ≤ e)
    (hfp : nodeFilePath n ≠ "") (hL1 : s ≤ L) (hL2 : L ≤ e) :
    lineLookup (buildIndex ⟨pre ++ n :: post, lk, md⟩ p) (nodeFilePath n) L =
      some (lastD (post.filter (fun m => covers m (nodeFilePath n) L)) n) := by
  have hcov : covers n (nodeFilePath n) L = true := by
    unfold covers
    rw [hs]
    have hle : L ≤ effEnd s n.end_line := by
      rw [he]
      unfold effEnd
      by_cases h0 : e = 0
      · subst h0; simp; omega
      · simp [h0]; omega
    simp [hfp, hL1, hle]
  rw [lineLookup_buildIndex]
  have hg : (D3Graph.mk (pre ++ n :: post) lk md).nodes = pre ++ n :: post := rfl
  rw [hg]
  have hfil : (pre ++ n :: post).filter (fun m => covers m (nodeFilePath n) L) =
      pre.filter (fun m => covers m (nodeFilePath n) L) ++
        n :: post.filter (fun m => covers m (nodeFilePath n) L) := by
    rw [List.filter_append, List.filter_cons]
    simp [hcov]
  rw [hfil]
  cases hA : pre.filter (fun m => covers m (nodeFilePath n) L) with
  | nil => rfl
  | cons c cs =>
    show some (lastD (cs ++ n :: post.filter (fun m => covers m (nodeFilePath n) L)) c) = _
    rw [lastD_append]
    rfl

/-- C5 witness: two overlapping nodes in the same file; the
later-processed node wins on the overlapping line. -/
theorem buildIndex_lineRange_lastWins_witness :
    ((mkNode "func_a" "a" "src/m.rs" "m.rs" (some 1) (some 3)).start_line = some 1
      ∧ 1 ≤ (3 : Nat) ∧ 1 ≤ (2 : Nat) ∧ 2 ≤ (3 : Nat)
      ∧ nodeFilePath (mkNode "func_a" "a" "src/m.rs" "m.rs" (some 1) (some 3)) ≠ "")
    ∧ lineLookup
        (buildIndex
          ⟨[mkNode "func_a" "a" "src/m.rs" "m.rs" (some 1) (some 3),
            mkNode "func_b" "b" "src/m.rs" "m.rs" (some 2) (some 4)], [], none⟩
          "p")
        (nodeFilePath (mkNode "func_a" "a" "src/m.rs" "m.rs" (some 1) (some 3))) 2 =
      some (mkNode "func_b" "b" "src/m.rs" "m.rs" (some 2) (some 4)) :=
  ⟨⟨by decide, by decide, by decide, by decide, by decide⟩,
   buildIndex_lineRange_lastWins []
     [mkNode "func_b" "b" "src/m.rs" "m.rs" (some 2) (some 4)]
     (mkNode "func_a" "a" "src/m.rs" "m.rs" (some 1) (some 3)) [] none "p"
     1 3 2 (by decide) (by decide) (by decide) (by decide) (by decide) (by decide)⟩

/-- C9: a node with a defined `start_line` and an absent (or 0, falsy)
`end_line` and a non-empty file path is line-indexed at exactly its
`start_line`: it can be found at no other line, and its `start_line` entry
is populated. -/
theorem buildIndex_startLine_only (g : D3Graph) (p : String) (n : D3Node)
    (s : Nat) (hn : n ∈ g.nodes) (hfp : nodeFilePath n ≠ "")
    (hs : n.start_line = some s) (he : n.end_line = none ∨ n.end_line = some 0) :
    (∀ L, lineLookup (buildIndex g p) (nodeFilePath n) L = some n → L = s)
    ∧ (lineLookup (buildIndex g p) (nodeFilePath n) s).isSome = true := by
  have heff : effEnd s n.end_line = s := by
    rcases he with h | h <;> simp [h, effEnd]
  constructor
  · intro L hL
    rw [lineLookup_buildIndex] at hL
    cases hfil : g.nodes.filter (fun m => covers m (nodeFilePath n) L) with
    | nil => rw [hfil] at hL; simp at hL
    | cons c cs =>
      rw [hfil] at hL
      have hlast : lastD cs c = n := by simpa using hL
      have hmem : n ∈ c :: cs := hlast ▸ lastD_mem cs c
      rw [← hfil] at hmem
      have hcov := (List.mem_filter.mp hmem).2
      unfold covers at hcov
      rw [hs] at hcov
      simp [heff] at hcov
      omega
  · have hcov : covers n (nodeFilePath n) s = true := by
      unfold covers
      rw [hs]
      simp [hfp, heff]
    have hmem : n ∈ g.nodes.filter (fun m => covers m (nodeFilePath n) s) :=
      List.mem_filter.mpr ⟨hn, hcov⟩
    rw [lineLookup_buildIndex]
    cases hfil : g.nodes.filter (fun m => covers m (nodeFilePath n) s) with
    | nil => rw [hfil] at hmem; simp at hmem
    | cons c cs => simp

theorem buildIndex_startLine_only_witness :
    nodeFilePath (mkNode "func_a" "a" "src/m.rs" "m.rs" (some 5) none) ≠ ""
    ∧ (lineLookup
        (buildIndex
          ⟨[mkNode "func_a" "a" "src/m.rs" "m.rs" (some 5) none], [], none⟩ "p")
        (nodeFilePath (mkNode "func_a" "a" "src/m.rs" "m.rs" (some 5) none))
        5).isSome = true :=
  ⟨by decide,
   (buildIndex_startLine_only
     ⟨[mkNode "func_a" "a" "src/m.rs" "m.rs" (some 5) none], [], none⟩ "p"
     (mkNode "func_a" "a" "src/m.rs" "m.rs" (some 5) none) 5
     (by decide) (by decide) (by decide) (Or.inl rfl)).2⟩

/-- C10: a node whose `relative_path` and `file_name` are both empty is
still inserted in `nodesById` and `nodesByDisplayName`, but appears in
neither `nodesByFile` nor `nodesByLine`. -/
theorem buildIndex_empty_path_indices (g : D3Graph) (p : String) (n : D3Node)
    (hn : n ∈ g.nodes) (hrp : n.relative_path = "") (hfn : n.file_name = "") :
    mapHasKey (buildIndex g p).nodesById n.id = true
    ∧ n ∈ (mapGet (buildIndex g p).nodesByDisplayName n.display_name).getD []
    ∧ (∀ f, n ∉ (mapGet (buildIndex g p).nodesByFile f).getD [])
    ∧ (∀ f L, lineLookup (buildIndex g p) f L ≠ some n) := by
  have hfp : nodeFilePath n = "" := by
    unfold nodeFilePath
    rw [hrp, hfn]
    simp
  refine ⟨?_, ?_, ?_, ?_⟩
  · have h : (buildIndex g p).nodesById =
        ((g.nodes.foldl buildStep ⟨[], [], [], []⟩)).nodesById := rfl
    rw [h, foldl_nodesById_hasKey]
    have hany : g.nodes.any (fun m => decide (m.id = n.id)) = true :=
      List.any_eq_true.mpr ⟨n, hn, by simp⟩
    simp [hany]
  · have h : (buildIndex g p).nodesByDisplayName =
        ((g.nodes.foldl buildStep ⟨[], [], [], []⟩)).nodesByDisplayName := rfl
    rw [h, foldl_displayName]
    have hmem : n ∈ g.nodes.filter (fun m => decide (m.display_name = n.display_name)) :=
      List.mem_filter.mpr ⟨hn, by simp⟩
    exact List.mem_append.mpr (Or.inr hmem)
  · intro f hmem
    have h : (buildIndex g p).nodesByFile =
        ((g.nodes.foldl buildStep ⟨[], [], [], []⟩)).nodesByFile := rfl
    rw [h] at hmem
    have hinv := fileInv_foldl g.nodes ⟨[], [], [], []⟩ fileInv_empty f n hmem
    exact hinv.2 (by rw [← hinv.1, hfp])
  · intro f L hL
    rw [lineLookup_buildIndex] at hL
    cases hfil : g.nodes.filter (fun m => covers m f L) with
    | nil => rw [hfil] at hL; simp at hL
    | cons c cs =>
      rw [hfil] at hL
      have hlast : lastD cs c = n := by simpa using hL
      have hmem : n ∈ c :: cs := hlast ▸ lastD_mem cs c
      rw [← hfil] at hmem
      have hcov := (List.mem_filter.mp hmem).2
      unfold covers at hcov
      cases hsl : n.start_line with
      | none => rw [hsl] at hcov; simp at hcov
      | some s =>
        rw [hsl] at hcov
        simp [hfp] at hcov

theorem buildIndex_empty_path_indices_witness :
    (mkNode "lonely" "lone" "" "" (some 2) (some 3)).relative_path = ""
    ∧ (mkNode "lonely" "lone" "" "" (some 2) (some 3)).file_name = ""
    ∧ mapHasKey
        (buildIndex ⟨[mkNode "lonely" "lone" "" "" (some 2) (some 3)], [], none⟩
          "p").nodesById "lonely" = true
    ∧ (mkNode "lonely" "lone" "" "" (some 2) (some 3)) ∈
        (mapGet
          (buildIndex ⟨[mkNode "lonely" "lone" "" "" (some 2) (some 3)], [], none⟩
            "p").nodesByDisplayName "lone").getD []
    ∧ (mkNode "lonely" "lone" "" "" (some 2) (some 3)) ∉
        (mapGet
          (buildIndex ⟨[mkNode "lonely" "lone" "" "" (some 2) (some 3)], [], none⟩
            "p").nodesByFile "src/m.rs").getD []
    ∧ lineLookup
        (buildIndex ⟨[mkNode "lonely" "lone" "" "" (some 2) (some 3)], [], none⟩
          "p") "src/m.rs" 2 ≠
        some (mkNode "lonely" "lone" "" "" (some 2) (some 3)) :=
  ⟨rfl, rfl,
   (buildIndex_empty_path_indices
     ⟨[mkNode "lonely" "lone" "" "" (some 2) (some 3)], [], none⟩ "p"
     (mkNode "lonely" "lone" "" "" (some 2) (some 3))
     (by decide) rfl rfl).1,
   (buildIndex_empty_path_indices
     ⟨[mkNode "lonely" "lone" "" "" (some 2) (some 3)], [], none⟩ "p"
     (mkNode "lonely" "lone" "" "" (some 2) (some 3))
     (by decide) rfl rfl).2.1,
   (buildIndex_empty_path_indices
     ⟨[mkNode "lonely" "lone" "" "" (some 2) (some 3)], [], none⟩ "p"
     (mkNode "lonely" "lone" "" "" (some 2) (some 3))
     (by decide) rfl rfl).2.2.1 "src/m.rs",
   (buildIndex_empty_path_indices
     ⟨[mkNode "lonely" "lone" "" "" (some 2) (some 3)], [], none⟩ "p"
     (mkNode "lonely" "lone" "" "" (some 2) (some 3))
     (by decide) rfl rfl).2.2.2 "src/m.rs" 2⟩

/-! ## Pipeline Supervisor model (`pipelineRunner.ts`)

The module-level singleton state is `currentStatus`, `debounceTimer`
(modelled as the scheduled absolute fire time) and `currentProcess`
(modelled as the pid of the tracked child process).  UI side effects
(status bar, output channel, message boxes) and filesystem reads in the
command-building prologue do not touch this state and are not modelled. -/

inductive PipelineStatus : Type
  | idle
  | running
  | success
  | error
deriving DecidableEq, Repr

structure RunnerState where
  currentStatus : PipelineStatus
  debounceTimer : Option Nat
  currentProcess : Option Nat
deriving DecidableEq, Repr

/-- Result of the synchronous part of `runPipeline` (lines 112-209): the
state after it returns, and whether `cp.spawn` was invoked. -/
structure RunEffect where
  state : RunnerState
  spawned : Bool
deriving DecidableEq, Repr

/-- The synchronous body of `runPipeline` up to and including `cp.spawn`
(pipelineRunner.ts lines 112-209).  After the early return when no
workspace folder is open, it unconditionally sets `currentStatus` to
`running` and spawns a fresh process — there is no check of the current
status. -/
def runPipelineStart (hasWorkspace : Bool) (s : RunnerState) (pid : Nat) :
    RunEffect :=
  if hasWorkspace then
    { state := { s with currentStatus := .running, currentProcess := some pid }
      spawned := true }
  else
    { state := s, spawned := false }

/-- Result of a process `close`/`error` callback: the state it leaves,
whether it triggered the Index Manager reload (`clearCache(); loadIndex`),
and whether it settled the `runPipeline` promise by calling `resolve()`
(the executor never calls a reject function — none exists). -/
structure CloseEffect where
  state : RunnerState
  reloadedIndex : Bool
  resolved : Bool
deriving DecidableEq, Repr

/-- The `close` handler registered on the spawned process (lines 219-246).
`code` is `number | null` (`none` models `null`, the killed-by-signal
case).  The handler is a plain closure over the module state: it checks
no identity of the process it belongs to. -/
def closeHandler (s : RunnerState) (code : Option Int) : CloseEffect :=
  let s1 : RunnerState := { s with currentProcess := none }
  if code = some 0 then
    { state := { s1 with currentStatus := .success }
      reloadedIndex := true
      resolved := true }
  else
    { state := { s1 with currentStatus := .error }
      reloadedIndex := false
      resolved := true }

/-- The `error` (spawn-failure) handler (lines 248-267). -/
def errorHandler (s : RunnerState) : CloseEffect :=
  { state := { s with currentStatus := .error, currentProcess := none }
    reloadedIndex := false
    resolved := true }

/-- Model of `cancelPipeline()` (lines 274-282): if a process is tracked, kill it,
drop the reference and go to `idle`; otherwise a no-op.  Returns the new
state and whether `kill()` was called. -/
def cancelPipeline (s : RunnerState) : RunnerState × Bool :=
  match s.currentProcess with
  | some _ => ({ s with currentProcess := none, currentStatus := .idle }, true)
  | none => (s, false)

/-- Model of `triggerDebounced()` (lines 91-107): clears any pending timer and arms
a fresh one `delayMs` from now. -/
def triggerDebounced (s : RunnerState) (now delayMs : Nat) : RunnerState :=
  { s with debounceTimer := some (now + delayMs) }

/-- The debounce timer callback (lines 99-106): clears the timer field,
then calls `runPipeline()` only if the status is not `running`. -/
def debounceTimerFire (hasWorkspace : Bool) (s : RunnerState) (pid : Nat) :
    RunEffect :=
  let s1 : RunnerState := { s with debounceTimer := none }
  if s1.currentStatus ≠ .running then runPipelineStart hasWorkspace s1 pid
  else { state := s1, spawned := false }

/-- For a trigger sequence `t1 :: ts` (absolute times, in order) with
delay `d`, the absolute times at which the debounce timer actually fires:
the timer armed at `tᵢ` fires at `tᵢ + d` only when it goes off strictly
before the next trigger re-arms it (`tᵢ + d < tᵢ₊₁`); the final timer
always fires. -/
def debounceFires : List Nat → Nat → List Nat
  | [], _ => []
  | [t], d => [t + d]
  | t1 :: t2 :: ts, d =>
    (if t1 + d < t2 then [t1 + d] else []) ++ debounceFires (t2 :: ts) d

theorem debounceFires_within_window :
    ∀ (ts : List Nat) (t d : Nat), List.Chain (fun a b => b < a + d) t ts →
      debounceFires (t :: ts) d = [lastD ts t + d] := by
  intro ts
  induction ts with
  | nil => intro t d _; rfl
  | cons t2 ts2 ih =>
    intro t d hchain
    rw [List.chain_cons] at hchain
    have h1 : ¬ (t + d < t2) := by
      have := hchain.1
      omega
    show (if t + d < t2 then [t + d] else []) ++ debounceFires (t2 :: ts2) d = _
    rw [if_neg h1, List.nil_append, ih t2 d hchain.2]
    rfl

/-! ## Claim theorems about the Pipeline Supervisor -/

/-- C1 counterexample: in a state whose status is `running` (with process
0 tracked), calling `runPipeline` spawns a second process and replaces the
active-process reference — the claimed no-op guard is absent from
`runPipeline` itself. -/
theorem runPipeline_spawns_while_running_cex :
    (runPipelineStart true ⟨.running, none, some 0⟩ 1).spawned = true
    ∧ (runPipelineStart true ⟨.running, none, some 0⟩ 1).state.currentProcess ≠
        (RunnerState.mk .running none (some 0)).currentProcess := by
  decide

/-- C1 amended: `runPipeline` performs no status check and always spawns
(when a workspace is open); the single-flight guard lives in the debounced
trigger path instead — a debounce timer firing while status is `running`
invokes no run, spawns nothing and leaves status and process reference
unchanged. -/
theorem single_flight_guard_in_debounce (s : RunnerState) (pid : Nat)
    (h : s.currentStatus = .running) :
    (debounceTimerFire true s pid).spawned = false
    ∧ (debounceTimerFire true s pid).state.currentStatus = s.currentStatus
    ∧ (debounceTimerFire true s pid).state.currentProcess = s.currentProcess
    ∧ (runPipelineStart true s pid).spawned = true := by
  refine ⟨?_, ?_, ?_, ?_⟩ <;> simp [debounceTimerFire, runPipelineStart, h]

theorem single_flight_guard_in_debounce_witness :
    (RunnerState.mk .running (some 99) (some 3)).currentStatus = .running
    ∧ (debounceTimerFire true ⟨.running, some 99, some 3⟩ 7).spawned = false
    ∧ (debounceTimerFire true ⟨.running, some 99, some 3⟩ 7).state.currentProcess
        = some 3 :=
  ⟨rfl,
   (single_flight_guard_in_debounce ⟨.running, some 99, some 3⟩ 7 rfl).1,
   (single_flight_guard_in_debounce ⟨.running, some 99, some 3⟩ 7 rfl).2.2.1⟩

/-- C2: the cancel-then-rerun race, evaluated on the concrete trace
run(pid 1) → cancel → run(pid 2) → late `close` of pid 1.  The second run
is in state `running` with process 2 tracked, yet the cancelled process's
late close callback (code `null`) flips the status to `error` and clears
the second run's process reference — the code carries no identity token,
so the claimed isolation fails. -/
theorem cancel_rerun_late_close_flips_state :
    ((runPipelineStart true
        (cancelPipeline (runPipelineStart true ⟨.idle, none, none⟩ 1).state).1
        2).state.currentStatus = .running)
    ∧ ((runPipelineStart true
        (cancelPipeline (runPipelineStart true ⟨.idle, none, none⟩ 1).state).1
        2).state.currentProcess = some 2)
    ∧ (closeHandler
        (runPipelineStart true
          (cancelPipeline (runPipelineStart true ⟨.idle, none, none⟩ 1).state).1
          2).state none).state.currentStatus = .error
    ∧ (closeHandler
        (runPipelineStart true
          (cancelPipeline (runPipelineStart true ⟨.idle, none, none⟩ 1).state).1
          2).state none).state.currentProcess = none := by
  decide

/-- C3: N ≥ 1 debounced triggers, each arriving within the delay window of
its predecessor, yield exactly one timer fire, `d` after the last trigger;
a fire in non-`running` status invokes `runPipeline` (one spawn), while a
fire in `running` status is dropped — nothing spawned, timer not
re-queued. -/
theorem debounce_exactly_one_run (t d : Nat) (ts : List Nat)
    (hwin : List.Chain (fun a b => b < a + d) t ts) :
    debounceFires (t :: ts) d = [lastD ts t + d]
    ∧ (∀ s pid, s.currentStatus ≠ .running →
        (debounceTimerFire true s pid).spawned = true)
    ∧ (∀ s pid, s.currentStatus = .running →
        (debounceTimerFire true s pid).spawned = false
        ∧ (debounceTimerFire true s pid).state.debounceTimer = none) := by
  refine ⟨debounceFires_within_window ts t d hwin, ?_, ?_⟩
  · intro s pid h
    simp [debounceTimerFire, runPipelineStart, h]
  · intro s pid h
    constructor <;> simp [debounceTimerFire, h]

/-- C3 witness: triggers at t = 0, 500, 1000 with delay 3000 ms give one
run at t = 4000. -/
theorem debounce_exactly_one_run_witness :
    (500 < 0 + 3000 ∧ 1000 < 500 + 3000)
    ∧ debounceFires [0, 500, 1000] 3000 = [4000] :=
  ⟨by omega,
   (debounce_exactly_one_run 0 3000 [500, 1000]
     (List.Chain.cons (by omega)
       (List.Chain.cons (by omega) List.Chain.nil))).1⟩

/-- C6: for every process-level failure — nonzero exit code, termination
by signal (`null` code), or spawn failure — `runPipeline` resolves
normally (never rejects), the status transitions to `error`, and no index
reload is triggered. -/
theorem run_failure_resolves_error_no_reload (s : RunnerState)
    (code : Option Int) (h : code ≠ some 0) :
    (closeHandler s code).resolved = true
    ∧ (closeHandler s code).state.currentStatus = .error
    ∧ (closeHandler s code).reloadedIndex = false
    ∧ (errorHandler s).resolved = true
    ∧ (errorHandler s).state.currentStatus = .error
    ∧ (errorHandler s).reloadedIndex = false := by
  refine ⟨?_, ?_, ?_, rfl, rfl, rfl⟩ <;> simp [closeHandler, h]

theorem run_failure_resolves_witness :
    (some (1 : Int) ≠ some (0 : Int))
    ∧ (closeHandler ⟨.running, none, some 4⟩ (some 1)).resolved = true
    ∧ (closeHandler ⟨.running, none, some 4⟩ (some 1)).state.currentStatus = .error
    ∧ (closeHandler ⟨.running, none, some 4⟩ (some 1)).reloadedIndex = false :=
  ⟨by decide,
   (run_failure_resolves_error_no_reload ⟨.running, none, some 4⟩ (some 1)
     (by decide)).1,
   (run_failure_resolves_error_no_reload ⟨.running, none, some 4⟩ (some 1)
     (by decide)).2.1,
   (run_failure_resolves_error_no_reload ⟨.running, none, some 4⟩ (some 1)
     (by decide)).2.2.1⟩

/-! ## Untyped JSON layer (`loadIndex`, `indexLoader.ts` lines 552-592)

The loader calls `JSON.parse` on the raw file text and performs no schema
validation: whatever dynamic value comes back flows straight into property
accesses and `buildIndex`.  To check the parser/validator claims we model
JSON values and the dynamic semantics of the accesses the code performs.
Numbers are modelled as integers (the dataset's line numbers and counts);
string escapes cover the JSON basics except `\uXXXX`. -/

inductive JSValue : Type
  | undefined
  | null
  | bool (b : Bool)
  | num (n : Int)
  | str (s : String)
  | arr (elems : List JSValue)
  | obj (fields : List (String × JSValue))

-- Structural equality (SameValueZero agrees with it on the primitives
-- that occur as map keys in this code path).
mutual

def jsEq : JSValue → JSValue → Bool
  | .undefined, .undefined => true
  | .null, .null => true
  | .bool a, .bool b => a == b
  | .num a, .num b => a == b
  | .str a, .str b => a == b
  | .arr a, .arr b => jsEqList a b
  | .obj a, .obj b => jsEqFields a b
  | _, _ => false

def jsEqList : List JSValue → List JSValue → Bool
  | [], [] => true
  | a :: as2, b :: bs => jsEq a b && jsEqList as2 bs
  | _, _ => false

def jsEqFields : List (String × JSValue) → List (String × JSValue) → Bool
  | [], [] => true
  | (ka, va) :: as2, (kb, vb) :: bs => ka == kb && jsEq va vb && jsEqFields as2 bs
  | _, _ => false

end

def isWsChar (c : Char) : Bool :=
  c = ' ' || c = '\n' || c = '\t' || c = '\r'

def skipWs : List Char → List Char
  | [] => []
  | c :: cs => if isWsChar c then skipWs cs else c :: cs

def escChar (c : Char) : Option Char :=
  if c = '\"' then some '\"'
  else if c = '\\' then some '\\'
  else if c = '/' then some '/'
  else if c = 'b' then some (Char.ofNat 8)
  else if c = 'f' then some (Char.ofNat 12)
  else if c = 'n' then some '\n'
  else if c = 'r' then some '\r'
  else if c = 't' then some '\t'
  else none

/-- Parse the body of a JSON string after its opening quote; returns the
content and the remaining input after the closing quote. -/
def parseStrBody : List Char → Except String (List Char × List Char)
  | [] => .error "Unterminated string"
  | '\\' :: [] => .error "Unterminated string"
  | '\\' :: c :: cs =>
    match escChar c with
    | some ec =>
      match parseStrBody cs with
      | .ok (s, r) => .ok (ec :: s, r)
      | .error e => .error e
    | none => .error "Bad escape in string"
  | '\"' :: cs => .ok ([], cs)
  | c :: cs =>
    match parseStrBody cs with
    | .ok (s, r) => .ok (c :: s, r)
    | .error e => .error e

def digitsToInt (ds : List Char) : Int :=
  ds.foldl (fun a c => a * 10 + (Int.ofNat (c.toNat - 48))) 0

/-- Parse a JSON integer (the model rejects fraction/exponent forms,
which do not occur in the dataset). -/
def parseNum (cs : List Char) : Except String (Int × List Char) :=
  let (neg, cs2) :=
    match cs with
    | '-' :: rest => (true, rest)
    | _ => (false, cs)
  let ds := cs2.takeWhile (fun c => c.isDigit)
  let rest := cs2.dropWhile (fun c => c.isDigit)
  if ds.isEmpty then .error "Bad number"
  else
    match rest with
    | '.' :: _ => .error "Fractional numbers not modelled"
    | 'e' :: _ => .error "Exponent numbers not modelled"
    | 'E' :: _ => .error "Exponent numbers not modelled"
    | _ => .ok (if neg then -(digitsToInt ds) else digitsToInt ds, rest)

mutual

def parseVal : Nat → List Char → Except String (JSValue × List Char)
  | 0, _ => .error "Depth limit exceeded"
  | fuel + 1, cs =>
    match skipWs cs with
    | [] => .error "Unexpected end of input"
    | 'n' :: 'u' :: 'l' :: 'l' :: rest => .ok (.null, rest)
    | 't' :: 'r' :: 'u' :: 'e' :: rest => .ok (.bool true, rest)
    | 'f' :: 'a' :: 'l' :: 's' :: 'e' :: rest => .ok (.bool false, rest)
    | '\"' :: rest =>
      match parseStrBody rest with
      | .ok (s, r) => .ok (.str (String.mk s), r)
      | .error e => .error e
    | '[' :: rest =>
      (match skipWs rest with
       | ']' :: r2 => .ok (.arr [], r2)
       | r2 =>
         match parseElems fuel r2 with
         | .ok (es, r3) => .ok (.arr es, r3)
         | .error e => .error e)
    | '\x7b' :: rest =>
      (match skipWs rest with
       | '\x7d' :: r2 => .ok (.obj [], r2)
       | r2 =>
         match parseFields fuel r2 with
         | .ok (fs, r3) => .ok (.obj fs, r3)
         | .error e => .error e)
    | c :: rest =>
      if c = '-' || c.isDigit then
        match parseNum (c :: rest) with
        | .ok (n, r) => .ok (.num n, r)
        | .error e => .error e
      else .error "Unexpected character"

def parseElems : Nat → List Char → Except String (List JSValue × List Char)
  | 0, _ => .error "Depth limit exceeded"
  | fuel + 1, cs =>
    match parseVal fuel cs with
    | .error e => .error e
    | .ok (v, r) =>
      match skipWs r with
      | ',' :: r2 =>
        (match parseElems fuel r2 with
         | .ok (vs, r3) => .ok (v :: vs, r3)
         | .error e => .error e)
      | ']' :: r2 => .ok ([v], r2)
      | _ => .error "Expected comma or closing bracket"

def parseFields : Nat → List Char → Except String (List (String × JSValue) × List Char)
  | 0, _ => .error "Depth limit exceeded"
  | fuel + 1, cs =>
    match skipWs cs with
    | '\"' :: rest =>
      (match parseStrBody rest with
       | .error e => .error e
       | .ok (k, r) =>
         match skipWs r with
         | ':' :: r2 =>
           (match parseVal fuel r2 with
            | .error e => .error e
            | .ok (v, r3) =>
              match skipWs r3 with
              | ',' :: r4 =>
                (match parseFields fuel r4 with
                 | .ok (fs, r5) => .ok ((String.mk k, v) :: fs, r5)
                 | .error e => .error e)
              | '\x7d' :: r4 => .ok ([(String.mk k, v)], r4)
              | _ => .error "Expected comma or closing brace")
         | _ => .error "Expected colon")
    | _ => .error "Expected string key"

end

/-- Model of `JSON.parse`: parse one value, then require only whitespace to
remain. -/
def jsonParse (s : String) : Except String JSValue :=
  match parseVal (2 * s.length + 2) s.data with
  | .error e => .error e
  | .ok (v, r) =>
    match skipWs r with
    | [] => .ok v
    | _ => .error "Unexpected trailing characters"

/-- Object property lookup; `JSON.parse` keeps the last of duplicate
keys. -/
def jsObjGet (fs : List (String × JSValue)) (name : String) : JSValue :=
  match (fs.filter (fun p => decide (p.1 = name))).getLast? with
  | some p => p.2
  | none => .undefined

/-- Dynamic property access `v[name]` as the loader performs it: throws a
TypeError on an `undefined`/`null` base, yields `length` for strings and
arrays, field lookup for objects, `undefined` otherwise. -/
def jsGetProp : JSValue → String → Except String JSValue
  | .undefined, name =>
    .error ("TypeError: Cannot read properties of undefined (reading " ++ name ++ ")")
  | .null, name =>
    .error ("TypeError: Cannot read properties of null (reading " ++ name ++ ")")
  | .str s, name =>
    .ok (if name = "length" then .num (Int.ofNat s.length) else .undefined)
  | .arr l, name =>
    .ok (if name = "length" then .num (Int.ofNat l.length) else .undefined)
  | .obj fs, name => .ok (jsObjGet fs name)
  | .bool _, _ => .ok .undefined
  | .num _, _ => .ok .undefined

def jsTruthy : JSValue → Bool
  | .undefined => false
  | .null => false
  | .bool b => b
  | .num n => decide (n ≠ 0)
  | .str s => decide (s ≠ "")
  | .arr _ => true
  | .obj _ => true

/-- Iteration `for (const x of v)`: arrays iterate their elements, strings iterate
their characters (as one-character strings); everything else the loader
could receive here is not iterable and throws. -/
def jsIterate : JSValue → Except String (List JSValue)
  | .arr l => .ok l
  | .str s => .ok (s.data.map (fun c => JSValue.str (String.mk [c])))
  | _ => .error "TypeError: graph.nodes is not iterable"

/-- Model of `Map.set` with JSValue keys (key equality is `jsEq`; the original key
object is kept on overwrite, as in JS). -/
def jsMapSet {V : Type} (m : List (JSValue × V)) (k : JSValue) (v : V) :
    List (JSValue × V) :=
  if m.any (fun p => jsEq p.1 k) then
    m.map (fun p => if jsEq p.1 k then (p.1, v) else p)
  else m ++ [(k, v)]

def jsMapGet {V : Type} (m : List (JSValue × V)) (k : JSValue) : Option V :=
  (m.find? (fun p => jsEq p.1 k)).map (fun p => p.2)

/-- The four maps of the untyped build loop. -/
structure JsMaps where
  nodesById : List (JSValue × JSValue)
  nodesByDisplayName : List (JSValue × List JSValue)
  nodesByFile : List (JSValue × List JSValue)
  nodesByLine : List (JSValue × List (Int × JSValue))

/-- The untyped result of `buildIndex` (Date metadata fields are
wall-clock reads, not modelled). -/
structure JsIndex where
  nodesById : List (JSValue × JSValue)
  nodesByDisplayName : List (JSValue × List JSValue)
  nodesByFile : List (JSValue × List JSValue)
  nodesByLine : List (JSValue × List (Int × JSValue))
  links : JSValue
  totalNodes : JSValue
  totalEdges : JSValue
  projectRoot : JSValue
  indexPath : String

def intRangeIncl (s e : Int) : List Int :=
  (List.range (e - s + 1).toNat).map (fun i => s + Int.ofNat i)

def jsSetLines (lm : List (Int × JSValue)) (node : JSValue) (s e : Int) :
    List (Int × JSValue) :=
  (intRangeIncl s e).foldl (fun m L => mapSet m L node) lm

/-- One iteration of `buildIndex`'s loop over whatever `graph.nodes`
yielded, with JS dynamic semantics for every property access.  When the
line-loop bounds are not numbers, the `line <= endLine` comparison is not
number-ordered and the loop body is modelled as never running (the line
map is still created and inserted, as in the source). -/
def jsBuildStep (acc : JsMaps) (node : JSValue) : Except String JsMaps := do
  let id ← jsGetProp node "id"
  let byId := jsMapSet acc.nodesById id node
  let dn ← jsGetProp node "display_name"
  let byName := jsMapSet acc.nodesByDisplayName dn
    ((jsMapGet acc.nodesByDisplayName dn).getD [] ++ [node])
  let rp ← jsGetProp node "relative_path"
  let fn ← jsGetProp node "file_name"
  let filePath := if jsTruthy rp then rp else fn
  let byFile :=
    if jsTruthy filePath then
      jsMapSet acc.nodesByFile filePath
        ((jsMapGet acc.nodesByFile filePath).getD [] ++ [node])
    else acc.nodesByFile
  let byLine ←
    if jsTruthy filePath then do
      let sl ← jsGetProp node "start_line"
      match sl with
      | .undefined => pure acc.nodesByLine
      | _ => do
        let el ← jsGetProp node "end_line"
        let lineMap := (jsMapGet acc.nodesByLine filePath).getD []
        let endLine := if jsTruthy el then el else sl
        match sl, endLine with
        | .num s, .num e =>
          pure (jsMapSet acc.nodesByLine filePath (jsSetLines lineMap node s e))
        | _, _ => pure (jsMapSet acc.nodesByLine filePath lineMap)
    else pure acc.nodesByLine
  pure ⟨byId, byName, byFile, byLine⟩

/-- Model of `buildIndex(graph, indexPath)` on the raw parsed value. -/
def jsBuildIndex (graph : JSValue) (indexPath : String) :
    Except String JsIndex := do
  let nodes ← jsGetProp graph "nodes"
  let nodeList ← jsIterate nodes
  let maps ← nodeList.foldlM jsBuildStep ⟨[], [], [], []⟩
  let links ← jsGetProp graph "links"
  let totalNodes ← jsGetProp nodes "length"
  let totalEdges ← jsGetProp links "length"
  let md ← jsGetProp graph "metadata"
  let pr ←
    match md with
    | .undefined => pure JSValue.undefined
    | .null => pure JSValue.undefined
    | _ => jsGetProp md "project_root"
  let projectRoot := if jsTruthy pr then pr else JSValue.str ""
  pure ⟨maps.nodesById, maps.nodesByDisplayName, maps.nodesByFile,
    maps.nodesByLine, links, totalNodes, totalEdges, projectRoot, indexPath⟩

/-! ## `getIndexPath` and `loadIndex` -/

inductive LoadError : Type
  | notFound (msg : String)
  | parseError (msg : String)
  | typeError (msg : String)

def DEFAULT_INDEX_PATH : String := ".vscode/call_graph_index.json"

/-- POSIX model of `path.isAbsolute`. -/
def isAbsolutePath (p : String) : Bool := p.startsWith "/"

/-- Model of `path.join` without normalization (none of the claims depend on dot
segments). -/
def pathJoin (a b : String) : String := a ++ "/" ++ b

/-- Model of `getIndexPath(workspaceRoot)` (indexLoader.ts lines 494-506); the
configured custom path is an input (`config.get('indexPath')`), with the
empty string falsy as in the source. -/
def getIndexPath (workspaceRoot : String) (customPath : Option String) : String :=
  match customPath with
  | some p =>
    if p ≠ "" then
      (if isAbsolutePath p then p else pathJoin workspaceRoot p)
    else pathJoin workspaceRoot DEFAULT_INDEX_PATH
  | none => pathJoin workspaceRoot DEFAULT_INDEX_PATH

def regenHintHead : String := "To generate the index, run:"

def notFoundMessagePrefix (indexPath : String) : String :=
  "Call graph index not found: " ++ indexPath ++ "\n\n"

def notFoundMessageTail (workspaceRoot indexPath : String) : String :=
  "\n  Command Palette → \"Call Graph: Regenerate Index\"\n\n" ++
  "Or manually:\n" ++
  "  cd /path/to/scip-callgraph\n" ++
  "  cargo run --release -p metrics-cli --bin pipeline -- \\\n" ++
  "    " ++ workspaceRoot ++ " -o " ++ indexPath ++ " --skip-similar-lemmas"

/-- The message of the error thrown at indexLoader.ts lines 564-572. -/
def notFoundMessage (workspaceRoot indexPath : String) : String :=
  notFoundMessagePrefix indexPath ++ regenHintHead ++
    notFoundMessageTail workspaceRoot indexPath

/-- The cache-miss path of `loadIndex` (lines 563-592): existence check,
`JSON.parse`, the log line's `.length` accesses, then `buildIndex`.
`fileContent` is `none` when the file does not exist.  The cache write and
watcher re-arming are side effects on module state that no claim here
inspects. -/
def loadIndexFresh (workspaceRoot indexPath : String)
    (fileContent : Option String) : Except LoadError JsIndex :=
  match fileContent with
  | none => .error (.notFound (notFoundMessage workspaceRoot indexPath))
  | some content =>
    match jsonParse content with
    | .error m => .error (.parseError m)
    | .ok graph =>
      match (do
        let ns ← jsGetProp graph "nodes"
        let _ ← jsGetProp ns "length"
        let ls ← jsGetProp graph "links"
        let _ ← jsGetProp ls "length"
        jsBuildIndex graph indexPath : Except String JsIndex) with
      | .error m => .error (.typeError m)
      | .ok idx => .ok idx

/-- Model of `loadIndex(workspaceRoot, forceReload)` (lines 552-592), with the
cached index and the file system supplied explicitly. -/
def loadIndexM (cached : Option JsIndex) (workspaceRoot : String)
    (customPath : Option String) (forceReload : Bool)
    (fileContent : Option String) : Except LoadError JsIndex :=
  match cached with
  | some idx =>
    if forceReload = false ∧ idx.indexPath = getIndexPath workspaceRoot customPath
    then .ok idx
    else loadIndexFresh workspaceRoot (getIndexPath workspaceRoot customPath)
      fileContent
  | none =>
    loadIndexFresh workspaceRoot (getIndexPath workspaceRoot customPath)
      fileContent

/-! ## Claim theorems about the Index Manager load path -/

/-- C7: with no cached index (the delete watcher clears the cache whenever
the dataset file disappears), `loadIndex` on a root whose resolved dataset
file is absent fails with the not-found error, whose message carries the
regeneration instructions; the result is produced in a single attempt —
the function performs no retry. -/
theorem loadIndex_missing_file_notFound (workspaceRoot : String)
    (customPath : Option String) (forceReload : Bool) :
    loadIndexM none workspaceRoot customPath forceReload none
      = .error (.notFound
          (notFoundMessage workspaceRoot (getIndexPath workspaceRoot customPath)))
    ∧ ∃ a b, notFoundMessage workspaceRoot (getIndexPath workspaceRoot customPath)
        = a ++ regenHintHead ++ b :=
  ⟨rfl,
   ⟨notFoundMessagePrefix (getIndexPath workspaceRoot customPath),
    notFoundMessageTail workspaceRoot (getIndexPath workspaceRoot customPath),
    rfl⟩⟩

/-- C8 (amended): a `JSON.parse` failure is propagated as a ParseError;
there is no explicit schema validation — an input whose `nodes` field is
missing is rejected only incidentally, by the TypeError from the
subsequent `.length` access, and an input whose `nodes` field is a string
(hence not a `nodes` array) is not rejected at all. -/
theorem parser_validation_behavior (s msg : String)
    (h : jsonParse s = Except.error msg) :
    loadIndexM none "root" none false (some s) = .error (.parseError msg)
    ∧ loadIndexM none "root" none false (some "\x7b\"links\":[]\x7d")
        = .error (.typeError
            "TypeError: Cannot read properties of undefined (reading length)")
    ∧ (loadIndexM none "root" none false
        (some "\x7b\"nodes\":\"ab\",\"links\":[]\x7d")).toOption.isSome = true := by
  refine ⟨?_, rfl, rfl⟩
  show loadIndexFresh "root" (getIndexPath "root" none) (some s) = _
  unfold loadIndexFresh
  simp only [h]

theorem parser_validation_behavior_witness :
    jsonParse "\x7b" = Except.error "Expected string key"
    ∧ loadIndexM none "root" none false (some "\x7b")
        = .error (.parseError "Expected string key") :=
  ⟨rfl, (parser_validation_behavior "\x7b" "Expected string key" rfl).1⟩

/-- C8 counterexample: the input whose `nodes` field is the string "ab"
(so the input lacks a `nodes` array) is not rejected: the loader resolves
with a partially-typed index whose only `nodesById` entry is keyed by
`undefined` and maps to the one-character string "b". -/
theorem parser_no_validation_cex :
    jsonParse "\x7b\"nodes\":\"ab\",\"links\":[]\x7d"
      = Except.ok (JSValue.obj [("nodes", JSValue.str "ab"),
          ("links", JSValue.arr [])])
    ∧ (loadIndexM none "root" none false
        (some "\x7b\"nodes\":\"ab\",\"links\":[]\x7d")).toOption.isSome = true
    ∧ (loadIndexM none "root" none false
        (some "\x7b\"nodes\":\"ab\",\"links\":[]\x7d")).toOption.map
          (fun idx => idx.nodesById)
        = some [(JSValue.undefined, JSValue.str "b")] :=
  ⟨rfl, rfl, rfl⟩
